import Mathlib

/-!
Verification of the csv-researcher data-analysis service.

The definitions below are a shallow embedding of the TypeScript source:
  * `src/shared/lib/utils.ts`   (normalizeColumnNames)
  * `src/app/api/files/upload/route.ts`  (inferColumnType, per-value conversion)
  * `src/lib/react-tools.ts`    (executeSqlTool, getTableSchemaTool)
  * `src/lib/react-state.ts`    (convertToUserFriendlyMessage, callReasoningCallback)
  * `src/lib/chat-history.ts`   (getAllChatHistory, getChatHistoryPaginated)
  * the dataset DELETE route    (cascading deletion)

JavaScript strings are modelled through `List Char` helpers defined first;
the SQLite engine is modelled as an explicit parameter or as a small state
record, with its documented behaviour noted at each point of use.
-/

namespace CsvResearcher

/-! ### JavaScript string primitives (ASCII-faithful models) -/

/-- Whitespace as recognised by JS `trim` and `\s`, restricted to ASCII. -/
def isWsJS (c : Char) : Bool :=
  c == ' ' || c == '\t' || c == '\n' || c == '\r' || c == '\x0b' || c == '\x0c'

/-- ASCII lower-casing of one character (JS `toLowerCase` on ASCII input). -/
def charLower (c : Char) : Char :=
  if 'A' ≤ c && c ≤ 'Z' then Char.ofNat (c.toNat + 32) else c

/-- JS `String.prototype.toLowerCase` (ASCII). -/
def toLowerStr (s : String) : String := ⟨s.data.map charLower⟩

def trimLeftL (l : List Char) : List Char := l.dropWhile isWsJS

/-- JS `String.prototype.trim`. -/
def trimStr (s : String) : String :=
  ⟨(trimLeftL s.data).reverse.dropWhile isWsJS |>.reverse⟩

/-- JS `String.prototype.startsWith`. -/
def startsWithStr (s pat : String) : Bool := pat.data.isPrefixOf s.data

/-- Substring occurrence test on character lists (JS `includes`). -/
def listContainsSub : List Char → List Char → Bool
  | [], p => p.isEmpty
  | c :: t, p => p.isPrefixOf (c :: t) || listContainsSub t p

/-- JS `String.prototype.includes`. -/
def containsStr (s pat : String) : Bool := listContainsSub s.data pat.data

/-- JS `replace(/;+$/, '')`: remove every trailing semicolon. -/
def stripTrailingSemis (s : String) : String :=
  ⟨(s.data.reverse.dropWhile (fun c => c == ';')).reverse⟩

/-- Boolean membership of a string in a list of strings. -/
def memB (s : String) (l : List String) : Bool := l.any (fun t => t == s)

/-! ### Decimal printing of a `Nat` (JS template `${n}`) -/

def digitToChar (d : Nat) : Char :=
  match d with
  | 0 => '0' | 1 => '1' | 2 => '2' | 3 => '3' | 4 => '4'
  | 5 => '5' | 6 => '6' | 7 => '7' | 8 => '8' | _ => '9'

/-- Little-endian decimal digits of `n`, with structural fuel. -/
def digRev : Nat → Nat → List Nat
  | 0, _ => []
  | fuel + 1, n => if n = 0 then [] else n % 10 :: digRev fuel (n / 10)

/-- Decimal rendering of a natural number, as JS prints it. -/
def natToStr (n : Nat) : String :=
  if n = 0 then "0" else ⟨((digRev (n + 1) n).reverse).map digitToChar⟩

/-- Value of a little-endian digit list (used only to prove `natToStr` injective). -/
def fromDigitsLE (l : List Nat) : Nat := l.foldr (fun d acc => d + 10 * acc) 0

/-! ### Type-inference patterns, from `inferColumnType` in `upload/route.ts` -/

/-- Regex `^-?\d+$` (the integer pattern). -/
def intPattern (s : String) : Bool :=
  let l := s.data
  let l' := if l.head? == some '-' then l.tail else l
  !l'.isEmpty && l'.all Char.isDigit

/-- Split a character list on `'.'`. -/
def splitDot : List Char → List (List Char)
  | [] => [[]]
  | c :: cs =>
    match splitDot cs with
    | s :: rest => if c == '.' then [] :: s :: rest else (c :: s) :: rest
    | [] => if c == '.' then [[], []] else [[c]]

/-- Regex `^-?\d*\.?\d+$` (the numeric pattern): after an optional sign,
digits with at most one dot, and at least one digit after the dot. -/
def realPattern (s : String) : Bool :=
  let l := s.data
  let l' := if l.head? == some '-' then l.tail else l
  match splitDot l' with
  | [a] => !a.isEmpty && a.all Char.isDigit
  | [a, b] => a.all Char.isDigit && !b.isEmpty && b.all Char.isDigit
  | _ => false

def isDateSep (c : Char) : Bool := c == '-' || c == '/'

/-- Match `\d{1,2}[-\/]` at the head (greedy with the one-step backtrack a
regex engine performs); returns the remainder after the separator. -/
def chunk12sep : List Char → Option (List Char)
  | a :: b :: c :: rest =>
    if a.isDigit then
      if b.isDigit then (if isDateSep c then some rest else none)
      else if isDateSep b then some (c :: rest) else none
    else none
  | [a, b] => if a.isDigit && isDateSep b then some [] else none
  | _ => none

/-- Regex `^\d{4}[-\/]\d{1,2}[-\/]\d{1,2}` (prefix match, end unanchored). -/
def datePat1 (l : List Char) : Bool :=
  if (l.take 4).length = 4 && (l.take 4).all Char.isDigit then
    match l.drop 4 with
    | c :: rest =>
      if isDateSep c then
        match chunk12sep rest with
        | some rest2 =>
          match rest2 with
          | d :: _ => d.isDigit
          | [] => false
        | none => false
      else false
    | [] => false
  else false

/-- Regex `^\d{1,2}[-\/]\d{1,2}[-\/]\d{4}` (prefix match, end unanchored). -/
def datePat2 (l : List Char) : Bool :=
  match chunk12sep l with
  | some r1 =>
    match chunk12sep r1 with
    | some r2 => (r2.take 4).length = 4 && (r2.take 4).all Char.isDigit
    | none => false
  | none => false

/-- Regex `^\d{4}\d{2}\d{2}$`. -/
def datePat3 (l : List Char) : Bool := l.length = 8 && l.all Char.isDigit

/-- `hasDatePattern` from `inferColumnType`: one of the three recognised shapes. -/
def datePattern (s : String) : Bool :=
  datePat1 s.data || datePat2 s.data || datePat3 s.data

/-! ### Models of the JS number and date parsers (external runtime functions) -/

def digitVal (c : Char) : Nat := c.toNat - 48

def digitsToNat (l : List Char) : Nat := l.foldl (fun acc c => acc * 10 + digitVal c) 0

/-- Model of JS `parseInt(s, 10)`: skip whitespace, optional sign, then the
maximal run of leading decimal digits; `none` models `NaN` (no digits). -/
def jsParseInt (s : String) : Option Int :=
  let l := trimLeftL s.data
  match l with
  | '-' :: rest =>
    let ds := rest.takeWhile Char.isDigit
    if ds.isEmpty then none else some (-(digitsToNat ds : Int))
  | '+' :: rest =>
    let ds := rest.takeWhile Char.isDigit
    if ds.isEmpty then none else some (digitsToNat ds : Int)
  | _ =>
    let ds := l.takeWhile Char.isDigit
    if ds.isEmpty then none else some (digitsToNat ds : Int)

/-- Model of JS `parseFloat`: recognises an optional sign followed by
`digits [. digits]` with at least one digit overall (exponents are accepted by
JS too but never needed below); the matched numeral is returned verbatim as
the value representation, `none` models `NaN`. -/
def jsParseFloat (s : String) : Option String :=
  let l := trimLeftL s.data
  let body := if l.head? == some '-' || l.head? == some '+' then l.tail else l
  let ip := body.takeWhile Char.isDigit
  let rest := body.drop ip.length
  let fp :=
    match rest with
    | '.' :: r => r.takeWhile Char.isDigit
    | _ => []
  if ip.isEmpty && fp.isEmpty then none
  else some ⟨(l.take ((l.length - body.length) + ip.length +
      (if fp.isEmpty then 0 else fp.length + 1)))⟩

def isLeapYear (y : Nat) : Bool :=
  (y % 4 = 0 && y % 100 ≠ 0) || y % 400 = 0

def daysInMonth (y m : Nat) : Nat :=
  if m = 2 then (if isLeapYear y then 29 else 28)
  else if m = 4 || m = 6 || m = 9 || m = 11 then 30
  else 31

/-- Model of the ECMAScript `Date` constructor restricted to ISO 8601
date-only strings `yyyy-mm-dd`: such a string yields a valid date exactly when
the month is 1..12 and the day fits the month, and `toISOString` then renders
it at UTC midnight.  Every other string is treated as invalid, which is
faithful for all concrete inputs used in this development. -/
def jsDateModel (s : String) : Option String :=
  match s.data with
  | [y1, y2, y3, y4, '-', m1, m2, '-', d1, d2] =>
    if [y1, y2, y3, y4, m1, m2, d1, d2].all Char.isDigit then
      let y := digitsToNat [y1, y2, y3, y4]
      let m := digitsToNat [m1, m2]
      let d := digitsToNat [d1, d2]
      if 1 ≤ m && m ≤ 12 && 1 ≤ d && d ≤ daysInMonth y m then
        some (s ++ "T00:00:00.000Z")
      else none
    else none
  | _ => none

/-- Validity test corresponding to `!isNaN(new Date(strValue).getTime())`. -/
def jsDateValid (dateParse : String → Option String) (s : String) : Bool :=
  (dateParse s).isSome

/-! ### `inferColumnType` (upload route, lines 39-84)

A cell is `Option String`: `none` models `null`/`undefined`.  The JS `Date`
constructor is passed in as the `dateParse` parameter. -/

/-- The non-null, non-empty cells of a column
(`values.filter(v => v !== null && v !== undefined && v !== '')`). -/
def nonNullCells (values : List (Option String)) : List String :=
  (values.filterMap id).filter (fun v => !(v == ""))

/-- One step of the sampling loop: conjoin the three running flags with this
sample's integer / numeric / date checks (`strValue = String(value).trim()`). -/
def inferStep (dateParse : String → Option String) (b : Bool × Bool × Bool)
    (value : String) : Bool × Bool × Bool :=
  let strValue := trimStr value
  (b.1 && intPattern strValue,
   b.2.1 && realPattern strValue,
   b.2.2 && (jsDateValid dateParse strValue && datePattern strValue))

/-- `inferColumnType` from the upload route: sample up to 100 non-null values
and pick `INTEGER > REAL > DATE > TEXT`; an empty column is `TEXT`. -/
def inferColumnType (dateParse : String → Option String)
    (values : List (Option String)) : String :=
  let nonNullValues := nonNullCells values
  if nonNullValues.length = 0 then "TEXT"
  else
    let sampleValues := nonNullValues.take 100
    let r := sampleValues.foldl (inferStep dateParse) (true, true, true)
    if r.1 then "INTEGER" else if r.2.1 then "REAL" else if r.2.2 then "DATE" else "TEXT"

/-! ### Per-value conversion during bulk load (upload route, lines 176-206) -/

/-- A value bound into the bulk-load INSERT.  `real` carries the numeral text
recognised by `parseFloat` (the numeric magnitude itself is irrelevant here). -/
inductive SqlVal where
  | null
  | int (i : Int)
  | real (numeral : String)
  | text (s : String)
deriving DecidableEq, Repr

/-- The per-cell conversion inside the bulk-load transaction: empty/null cells
become `null`; otherwise the trimmed text is converted per the column's
inferred type, with `parseInt`/`parseFloat` failures degrading to `null` and
`Date` failures keeping the raw trimmed string. -/
def convertValue (dateParse : String → Option String) (columnType : String)
    (value : Option String) : SqlVal :=
  match value with
  | none => .null
  | some v =>
    if v == "" then .null
    else
      let strValue := trimStr v
      if columnType == "INTEGER" then
        match jsParseInt strValue with
        | none => .null
        | some i => .int i
      else if columnType == "REAL" then
        match jsParseFloat strValue with
        | none => .null
        | some x => .real x
      else if columnType == "DATE" then
        match dateParse strValue with
        | none => .text strValue
        | some iso => .text iso
      else .text strValue

/-! ### `normalizeColumnNames` (`src/shared/lib/utils.ts`, lines 23-82)

The function also returns an original-to-normalized mapping; only the list of
normalized names matters to the properties below, so the mapping is omitted. -/

/-- Global regex replace of every maximal run of `p`-characters by one `rep`
(`replace(/\s+/g, '_')` and `replace(/_+/g, '_')`); `inRun` records whether
the previous character was part of a run. -/
def collapseRunsAux (p : Char → Bool) (rep : Char) : Bool → List Char → List Char
  | _, [] => []
  | inRun, c :: cs =>
    if p c then
      if inRun then collapseRunsAux p rep true cs
      else rep :: collapseRunsAux p rep true cs
    else c :: collapseRunsAux p rep false cs

def collapseRuns (p : Char → Bool) (rep : Char) (l : List Char) : List Char :=
  collapseRunsAux p rep false l

/-- JS `\w` plus the Hangul range kept by `replace(/[^\w가-힣]/g, '_')`. -/
def isWordChar (c : Char) : Bool :=
  ('a' ≤ c && c ≤ 'z') || ('A' ≤ c && c ≤ 'Z') || ('0' ≤ c && c ≤ '9') ||
    c == '_' || ('가' ≤ c && c ≤ '힣')

/-- Strip leading and trailing underscores (`replace(/^_+|_+$/g, '')`). -/
def stripEdgeUnders (l : List Char) : List Char :=
  ((l.dropWhile (fun c => c == '_')).reverse.dropWhile (fun c => c == '_')).reverse

/-- The character-level normalization pipeline: trim, whitespace runs to `_`,
non-word characters to `_`, underscore runs collapsed, edge underscores cut. -/
def rawNormalize (c : String) : String :=
  ⟨stripEdgeUnders (collapseRuns (fun ch => ch == '_') '_'
    ((collapseRuns isWsJS '_' (trimStr c).data).map
      (fun ch => if isWordChar ch then ch else '_')))⟩

/-- The SQLite reserved words guarded against in `normalizeColumnNames`. -/
def reservedWords : List String :=
  ["select", "from", "where", "insert", "update", "delete", "create", "drop",
   "table", "index", "view", "database", "schema", "primary", "key", "foreign",
   "references", "constraint", "unique", "not", "null", "default", "check",
   "and", "or", "in", "like", "between", "exists", "case", "when", "then",
   "else", "end", "as", "order", "by", "group", "having", "limit", "offset",
   "union", "intersect", "except", "join", "inner", "left", "right", "full",
   "outer", "on", "using", "distinct", "all", "any", "some"]

/-- Candidate name with a numeric suffix (`${normalizedColumn}_${counter}`). -/
def candName (base : String) (k : Nat) : String := base ++ "_" ++ natToStr k

/-- The de-duplication `while` loop: keep `base` if its lower-casing is unused,
else take the first free `base_k`, `k = 1, 2, ...`.  The source loop is
unbounded; searching `k ≤ usedNames.size + 1` is exhaustive by pigeonhole
(see `pickFresh_not_used`), so the final fallback branch is never reached. -/
def pickFresh (used : List String) (base : String) : String :=
  if memB (toLowerStr base) used then
    match (List.range (used.length + 1)).find?
        (fun j => !(memB (toLowerStr (candName base (j + 1))) used)) with
    | some j => candName base (j + 1)
    | none => candName base (used.length + 2)
  else base

/-- Normalization of the column at 0-based position `idx`, given the
lower-cased names already taken. -/
def normalizeOne (idx : Nat) (used : List String) (c : String) : String :=
  let n0 := rawNormalize c
  let n1 := if n0 == "" || (n0.data.head?.map Char.isDigit).getD false
    then "column_" ++ natToStr (idx + 1) else n0
  let n2 := if memB (toLowerStr n1) reservedWords then n1 ++ "_col" else n1
  pickFresh used n2

def normalizeGo : List String → Nat → List String → List String
  | [], _, _ => []
  | c :: rest, idx, used =>
    let fin := normalizeOne idx used c
    fin :: normalizeGo rest (idx + 1) (toLowerStr fin :: used)

/-- `normalizeColumnNames`: the list of normalized column names, in order. -/
def normalizeColumnNames (cols : List String) : List String :=
  normalizeGo cols 0 []

/-! ### Conversation history (`src/lib/chat-history.ts`)

A row of the `chat_history` table.  The store is the table contents in
insertion order; `timestamp` is a monotonic clock, so `ORDER BY timestamp ASC`
returns the (filtered) store as is and `ORDER BY timestamp DESC` its reverse
whenever the store is strictly ascending in `timestamp` (hypothesis of the
theorems below). -/
structure ChatHistoryItem where
  id : Nat
  fileId : String
  userMessage : String
  aiResponse : String
  timestamp : Nat
deriving DecidableEq, Repr

/-- `SELECT * FROM chat_history WHERE fileId = ? ORDER BY timestamp ASC`. -/
def chatRowsAsc (store : List ChatHistoryItem) (fileId : String) :
    List ChatHistoryItem :=
  store.filter (fun t => t.fileId == fileId)

/-- `getAllChatHistory`: the full ascending history of one dataset. -/
def getAllChatHistory (store : List ChatHistoryItem) (fileId : String) :
    List ChatHistoryItem :=
  chatRowsAsc store fileId

/-- Result shape of `getChatHistoryPaginated`. -/
structure PageResult where
  history : List ChatHistoryItem
  totalCount : Nat
  hasMore : Bool
  currentPage : Nat
deriving DecidableEq, Repr

/-- `getChatHistoryPaginated`: a newest-first window of size `limit` at offset
`(page-1)*limit`, re-reversed to ascending order, with the separate
`getChatHistoryCount` total and `hasMore = offset + limit < totalCount`. -/
def getChatHistoryPaginated (store : List ChatHistoryItem) (fileId : String)
    (page limit : Nat) : PageResult :=
  let offset := (page - 1) * limit
  let desc := (chatRowsAsc store fileId).reverse
  let windowRows := (desc.drop offset).take limit
  let totalCount := (chatRowsAsc store fileId).length
  { history := windowRows.reverse
    totalCount := totalCount
    hasMore := decide (offset + limit < totalCount)
    currentPage := page }

/-! ### Reasoning stream (`src/lib/react-state.ts`)

`convertToUserFriendlyMessage` is a chain of JS global regex replacements;
they are modelled by a literal matcher with `\s*`/`\s+` tokens and ordered
alternation, scanning left to right exactly as `String.replace(/.../g)` does. -/

inductive RTok where
  | lit (s : List Char)
  | ws0
  | ws1
deriving Repr

/-- Match one alternative at the head of `s`; greedy whitespace consumption is
exact here because every following token starts with a non-space literal. -/
def matchAlt : List RTok → List Char → Option (List Char)
  | [], s => some s
  | .lit l :: ps, s => if l.isPrefixOf s then matchAlt ps (s.drop l.length) else none
  | .ws0 :: ps, s => matchAlt ps (s.dropWhile isWsJS)
  | .ws1 :: _, [] => none
  | .ws1 :: ps, c :: rest =>
    if isWsJS c then matchAlt ps (rest.dropWhile isWsJS) else none

/-- First alternative that matches (JS alternation preference order). -/
def tryAlts : List (List RTok) → List Char → Option (List Char)
  | [], _ => none
  | a :: as, s =>
    match matchAlt a s with
    | some r => some r
    | none => tryAlts as s

/-- Left-to-right global replacement.  Every pattern used below consumes at
least one character per match, so fuel `length + 1` never runs out. -/
def replaceAllAux (alts : List (List RTok)) (repl : List Char) :
    Nat → List Char → List Char
  | 0, s => s
  | _ + 1, [] => []
  | fuel + 1, c :: cs =>
    match tryAlts alts (c :: cs) with
    | some rest => repl ++ replaceAllAux alts repl fuel rest
    | none => c :: replaceAllAux alts repl fuel cs

def replaceAllStr (alts : List (List RTok)) (repl : String) (s : String) : String :=
  ⟨replaceAllAux alts repl.data (s.data.length + 1) s.data⟩

def litP (t : String) : List RTok := [.lit t.data]

def joinWs0 (a b : String) : List RTok := [.lit a.data, .ws0, .lit b.data]

def joinWs1 (a b : String) : List RTok := [.lit a.data, .ws1, .lit b.data]

/-- `convertToUserFriendlyMessage`: the eleven vocabulary-scrub replacements,
in source order. -/
def convertToUserFriendlyMessage (reasoning : String) : String :=
  let s1 := replaceAllStr [joinWs0 "테이블" "조회"] "데이터 분석" reasoning
  let s2 := replaceAllStr [joinWs0 "컬럼" "조회"] "필드 분석" s1
  let s3 := replaceAllStr [joinWs0 "스키마" "조회"] "구조 분석" s2
  let s4 := replaceAllStr [joinWs0 "SQL" "실행"] "데이터 분석" s3
  let s5 := replaceAllStr [joinWs0 "쿼리" "실행"] "데이터 분석" s4
  let s6 := replaceAllStr [litP "테이블", litP "컬럼", litP "스키마", litP "SQL", litP "쿼리"]
    "데이터" s5
  let s7 := replaceAllStr [litP "조회", litP "실행"] "분석" s6
  let s8 := replaceAllStr [litP "데이터베이스"] "정보" s7
  let s9 := replaceAllStr [litP "행", litP "row"] "항목" s8
  let s10 := replaceAllStr [joinWs1 "데이터" "데이터"] "데이터" s9
  replaceAllStr [joinWs1 "분석" "분석"] "분석" s10

/-- A registered reasoning callback.  A JS callback may throw; that is
modelled by returning `Except.error`. -/
def ReasoningCallback := String → Except String Unit

/-- `callReasoningCallback`: when a callback is registered and the reasoning
text is non-empty (JS truthiness), scrub the text, prepend the optional
prefix, and invoke the callback directly — the source wraps the invocation in
no `try`/`catch`, so a callback error is returned to the caller. -/
def callReasoningCallback (cb : Option ReasoningCallback) (reasoning : String)
    (pre : Option String) : Except String Unit :=
  match cb with
  | none => .ok ()
  | some f =>
    if reasoning == "" then .ok ()
    else
      let userFriendlyReasoning := convertToUserFriendlyMessage reasoning
      match pre with
      | some p => f (p ++ " " ++ userFriendlyReasoning)
      | none => f userFriendlyReasoning

/-! ### `executeSqlTool` (`src/lib/react-tools.ts`, lines 170-260)

A database row; its exact shape is irrelevant to the tool's control flow. -/
def DatabaseRow := List (String × String)
deriving instance DecidableEq, Repr for DatabaseRow

/-- The storage engine behind `db.select`: `Except.error` models an engine
failure being rethrown from `db.select`'s result. -/
def Engine := String → Except String (List DatabaseRow)

/-- The tool's possible returns.  In the source every failure is a thrown
`Error` converted by the surrounding `catch` into `{success: false, error}`;
constructors are distinguished by their throw site / message:
`validationError` is '보안상 SELECT 쿼리만 허용됩니다.', `unsupportedFn` is the
'SQLite에서 지원하지 않는 함수입니다' message carrying the offending token,
`scopeViolation` is '현재 파일의 테이블(...)에만 접근할 수 있습니다.',
`engineError` a failure bubbling out of `db.select`, and `callbackError` an
exception thrown by the reasoning callback (caught by the same `catch`). -/
inductive SqlOutcome where
  | ok (rows : List DatabaseRow)
  | callbackError (e : String)
  | validationError
  | unsupportedFn (tok : String)
  | scopeViolation
  | engineError (e : String)
deriving DecidableEq, Repr

/-- The SQLite-incompatible constructs rejected up front. -/
def sqliteIncompatible : List String :=
  ["top ", "first ", "isnull(", "charindex(", "patindex(",
   "datediff(", "concat(", "row_number()", "over(", "pivot", "unpivot",
   "stdev(", "stddev(", "var_pop(", "var_samp(", "variance(",
   "median(", "percentile_cont(", "percentile_disc("]

/-- The optional reasoning-callback step at the top of the tool body
(`if (reasoning) ReActStateManager.callReasoningCallback(reasoning)`). -/
def cbStep (cb : Option ReasoningCallback) (reasoning : Option String) :
    Except String Unit :=
  match reasoning with
  | some r => callReasoningCallback cb r none
  | none => .ok ()

/-- Query sanitation (lines 211-213): trim, drop trailing semicolons, and
append `LIMIT 1000` unless the text already contains `limit`. -/
def sanitizeQuery (query : String) : String :=
  let cleanQuery := stripTrailingSemis (trimStr query)
  if containsStr (toLowerStr cleanQuery) "limit" then cleanQuery
  else cleanQuery ++ " LIMIT 1000"

/-- `executeSqlTool`: callback, SELECT-only guard, incompatible-function scan,
table-scope check (bare and quoted spellings), sanitation, then `db.select`.
The tracker and logging side effects are irrelevant to the claims and
omitted. -/
def executeSqlTool (cb : Option ReasoningCallback) (dbSel : Engine)
    (query fileId : String) (reasoning : Option String) : SqlOutcome :=
  match cbStep cb reasoning with
  | .error e => .callbackError e
  | .ok () =>
    let trimmedQuery := toLowerStr (trimStr query)
    if !(startsWithStr trimmedQuery "select") then .validationError
    else
      match sqliteIncompatible.find? (fun syn => containsStr trimmedQuery syn) with
      | some tok => .unsupportedFn tok
      | none =>
        let tableName := "data_" ++ fileId
        let queryLower := toLowerStr query
        if !(containsStr queryLower (toLowerStr tableName) ||
             containsStr queryLower (toLowerStr ("\"" ++ tableName ++ "\"")) ||
             containsStr queryLower (toLowerStr ("'" ++ tableName ++ "'"))) then
          .scopeViolation
        else
          match dbSel (sanitizeQuery query) with
          | .ok rows => .ok rows
          | .error e => .engineError e

/-! ### Database state for the schema tool and the dataset DELETE route -/

/-- One row of `PRAGMA table_info`. -/
structure SchemaCol where
  name : String
  type : String
  notnull : Bool
  dfltValue : Option String
deriving DecidableEq, Repr

/-- The SQLite file behind `DatabaseManager`: the `files` registry (ids), the
per-dataset isolated tables keyed by table name, and the `chat_history`
table. -/
structure DbState where
  files : List String
  tables : List (String × List SchemaCol)
  chats : List ChatHistoryItem
deriving DecidableEq, Repr

/-- `PRAGMA table_info("t")` through `db.select`: SQLite returns the column
rows of an existing table and an *empty* row set — not an error — for a
missing table, so this call always succeeds. -/
def pragmaTableInfo (st : DbState) (tableName : String) : List SchemaCol :=
  match st.tables.find? (fun t => t.1 == tableName) with
  | some t => t.2
  | none => []

/-- The `{name, type, nullable, defaultValue}` projection built by the tool. -/
structure FormattedCol where
  name : String
  type : String
  nullable : Bool
  defaultValue : Option String
deriving DecidableEq, Repr

/-- Returns of `getTableSchemaTool`: a thrown error is converted by the
surrounding `catch` into a failure result. -/
inductive SchemaOutcome where
  | ok (cols : List FormattedCol)
  | failure (e : String)
deriving DecidableEq, Repr

/-- `getTableSchemaTool` (`react-tools.ts`, lines 262-309): optional callback,
then `PRAGMA table_info("data_<fileId>")` and the per-column projection. -/
def getTableSchemaTool (cb : Option ReasoningCallback) (st : DbState)
    (fileId : String) (reasoning : Option String) : SchemaOutcome :=
  match cbStep cb reasoning with
  | .error e => .failure e
  | .ok () =>
    let tableName := "data_" ++ fileId
    let schema := pragmaTableInfo st tableName
    .ok (schema.map (fun col =>
      { name := col.name, type := col.type,
        nullable := !col.notnull, defaultValue := col.dfltValue }))

/-- The three storage steps of the dataset DELETE route, in execution order. -/
inductive DelOp where
  | clearHistory
  | dropTable
  | deleteMeta
deriving DecidableEq, Repr

/-- Result of the DELETE route: the HTTP-level response (error message or
success message), the resulting database state, and the trace of storage
steps attempted. -/
structure DelOutcome where
  response : Except String String
  state : DbState
  trace : List DelOp
deriving Repr

/-- Whether an HTTP-level response is a success. -/
def respOk (r : Except String String) : Bool :=
  match r with
  | .ok _ => true
  | .error _ => false

/-- The dataset DELETE route: look up the file (404 when absent), then
1. `clearChatHistory` inside `try`/`catch` — a failure is logged and the
   deletion continues;
2. `DROP TABLE IF EXISTS "data_<id>"` — a failure aborts with an error;
3. `DELETE FROM files WHERE id = ?` — a failure aborts with an error.
Engine failures of the three statements are injected through the three
Boolean flags; a failed statement leaves the state unchanged. -/
def deleteDatasetRoute (st : DbState) (id : String)
    (hFail dFail mFail : Bool) : DelOutcome :=
  if !(st.files.contains id) then
    { response := .error "파일을 찾을 수 없습니다.", state := st, trace := [] }
  else
    let st1 := if hFail then st
      else { st with chats := st.chats.filter (fun t => !(t.fileId == id)) }
    if dFail then
      { response := .error "테이블 삭제 실패", state := st1,
        trace := [.clearHistory, .dropTable] }
    else
      let st2 := { st1 with
        tables := st1.tables.filter (fun t => !(t.1 == "data_" ++ id)) }
      if mFail then
        { response := .error "파일 메타데이터 삭제 실패", state := st2,
          trace := [.clearHistory, .dropTable, .deleteMeta] }
      else
        { response := .ok "파일과 관련 데이터가 모두 삭제되었습니다.",
          state := { st2 with files := st2.files.filter (fun f => !(f == id)) },
          trace := [.clearHistory, .dropTable, .deleteMeta] }

/-! ### Spec-side definitions (used only to state what the spec asserts) -/

/-- Modelled from the spec: the first keyword of a query — the maximal run of
non-whitespace characters after trimming, lower-cased. -/
def firstKeyword (q : String) : String :=
  toLowerStr ⟨(trimStr q).data.takeWhile (fun c => !(isWsJS c))⟩

/-- Modelled from the spec: the word tokens of a query — maximal runs of
identifier characters, lower-cased. -/
def sqlWordTokens (q : String) : List String :=
  (((toLowerStr q).data.map (fun c => if isWordChar c then c else ' ')).splitOn ' ').filterMap
    (fun w => if w.isEmpty then none else some (⟨w⟩ : String))

/-- Modelled from the spec: a row cap is present when `limit` occurs as a
standalone word of the query. -/
def hasRowCapToken (q : String) : Bool := memB "limit" (sqlWordTokens q)

/-- Modelled from the spec: the query reads (references) the isolated table of
dataset `id` when it mentions `data_<id>`, case-insensitively. -/
def referencesDataset (q id : String) : Bool :=
  containsStr (toLowerStr q) (toLowerStr ("data_" ++ id))

/-! ### Concrete fixtures for witnesses and counterexamples -/

/-- An engine whose every query returns an empty row set. -/
def engineOkEmpty : Engine := fun _ => .ok []

/-- An engine that fails every query. -/
def engineFail : Engine := fun _ => .error "engine down"

/-- An engine echoing the executed query text back as its one row, to observe
exactly which statement reached storage. -/
def engineEcho : Engine := fun q => .ok [[("query", q)]]

/-- A 5000-row table. -/
def tbl5000 : List DatabaseRow := List.replicate 5000 []

/-- A LIMIT-honouring engine over a concrete table (SQLite semantics for the
one statement the capped query produces): the capped query returns at most
1000 rows, anything else returns the full table. -/
def limitEngine (tbl : List DatabaseRow) : Engine := fun q =>
  if q = "SELECT * FROM data_x LIMIT 1000" then .ok (tbl.take 1000) else .ok tbl

/-- An engine modelling a 5000-row table read by a query that carries no
LIMIT clause: the whole table comes back. -/
def unlimitedEngine : Engine := fun _ => .ok tbl5000

/-- A reasoning callback that throws. -/
def cbThrow : ReasoningCallback := fun _ => .error "callback down"

/-- A reasoning callback that succeeds silently. -/
def cbNoop : ReasoningCallback := fun _ => .ok ()

/-- A one-dataset database state: registered file `f1`, its isolated table,
and one conversation turn. -/
def st0c : DbState :=
  { files := ["f1"]
    tables := [("data_f1",
      [{ name := "a", type := "TEXT", notnull := false, dfltValue := none }])]
    chats := [{ id := 1, fileId := "f1", userMessage := "u", aiResponse := "r",
                timestamp := 5 }] }

/-- A three-turn history store for one dataset. -/
def chatStore0 : List ChatHistoryItem :=
  [{ id := 1, fileId := "f", userMessage := "q1", aiResponse := "a1", timestamp := 1 },
   { id := 2, fileId := "f", userMessage := "q2", aiResponse := "a2", timestamp := 2 },
   { id := 3, fileId := "f", userMessage := "q3", aiResponse := "a3", timestamp := 3 }]

/-- Concatenation, in page order, of every page of the paginated history. -/
def pagesJoin (store : List ChatHistoryItem) (fileId : String) (k : Nat) :
    List ChatHistoryItem :=
  ((List.range (((getAllChatHistory store fileId).length + k - 1) / k)).map
    (fun i => (getChatHistoryPaginated store fileId (i + 1) k).history)).flatten

/-! ## Lemmas: string primitives -/

theorem isPrefixOf_iff (p l : List Char) : p.isPrefixOf l = true ↔ ∃ t, p ++ t = l := by
  induction p generalizing l with
  | nil => simp [List.isPrefixOf]
  | cons a as ih =>
    cases l with
    | nil => simp [List.isPrefixOf]
    | cons b bs =>
      simp only [List.isPrefixOf, Bool.and_eq_true, beq_iff_eq, ih, List.cons_append,
        List.cons.injEq]
      constructor
      · rintro ⟨hab, t, ht⟩
        exact ⟨t, hab, ht⟩
      · rintro ⟨t, hab, ht⟩
        exact ⟨hab, t, ht⟩

theorem containsSub_iff (l p : List Char) :
    listContainsSub l p = true ↔ ∃ u v, u ++ p ++ v = l := by
  induction l with
  | nil =>
    simp only [listContainsSub, List.isEmpty_iff]
    constructor
    · rintro rfl
      exact ⟨[], [], rfl⟩
    · rintro ⟨u, v, h⟩
      rcases List.append_eq_nil.mp h with ⟨h1, h2⟩
      exact (List.append_eq_nil.mp h1).2
  | cons c t ih =>
    simp only [listContainsSub, Bool.or_eq_true, isPrefixOf_iff, ih]
    constructor
    · rintro (⟨w, hw⟩ | ⟨u, v, h⟩)
      · exact ⟨[], w, by simpa using hw⟩
      · exact ⟨c :: u, v, by simp [← h]⟩
    · rintro ⟨u, v, h⟩
      cases u with
      | nil =>
        left
        exact ⟨v, by simpa using h⟩
      | cons x u' =>
        right
        simp only [List.cons_append, List.cons.injEq] at h
        exact ⟨u', v, h.2⟩

theorem containsStr_of_wrap (s a t b : String)
    (h : containsStr s (a ++ t ++ b) = true) : containsStr s t = true := by
  rw [containsStr, containsSub_iff] at h ⊢
  rcases h with ⟨u, v, h⟩
  rw [String.data_append, String.data_append] at h
  refine ⟨u ++ a.data, b.data ++ v, ?_⟩
  simpa [List.append_assoc] using h

theorem toLowerStr_append (a b : String) :
    toLowerStr (a ++ b) = toLowerStr a ++ toLowerStr b := by
  show String.mk (((a ++ b).data).map charLower) =
    String.mk ((a.data.map charLower) ++ (b.data.map charLower))
  rw [String.data_append, List.map_append]

/-! ## Lemmas: decimal printing is injective on positive numbers -/

theorem charLower_digitToChar (d : Nat) : charLower (digitToChar d) = digitToChar d := by
  unfold digitToChar
  rcases d with _ | _ | _ | _ | _ | _ | _ | _ | _ | d2 <;> rfl

theorem digitToChar_inj :
    ∀ d1, d1 < 10 → ∀ d2, d2 < 10 → digitToChar d1 = digitToChar d2 → d1 = d2 := by
  decide

theorem fromDigitsLE_digRev : ∀ fuel n, n ≤ fuel → fromDigitsLE (digRev fuel n) = n := by
  intro fuel
  induction fuel with
  | zero =>
    intro n h
    interval_cases n
    rfl
  | succ fuel ih =>
    intro n h
    by_cases h0 : n = 0
    · simp [digRev, h0, fromDigitsLE]
    · have hdiv : n / 10 < n := Nat.div_lt_self (Nat.pos_of_ne_zero h0) (by omega)
      have := Nat.div_add_mod n 10
      simp only [digRev, h0, if_false, fromDigitsLE, List.foldr_cons]
      have ihv : fromDigitsLE (digRev fuel (n / 10)) = n / 10 := ih (n / 10) (by omega)
      rw [fromDigitsLE] at ihv
      rw [ihv]
      omega

theorem digRev_lt10 : ∀ fuel n d, d ∈ digRev fuel n → d < 10 := by
  intro fuel
  induction fuel with
  | zero => simp [digRev]
  | succ fuel ih =>
    intro n d hd
    by_cases h0 : n = 0
    · simp [digRev, h0] at hd
    · simp only [digRev, h0, if_false, List.mem_cons] at hd
      rcases hd with rfl | hd
      · exact Nat.mod_lt _ (by omega)
      · exact ih _ _ hd

theorem map_digitToChar_inj :
    ∀ l1 l2 : List Nat, (∀ d ∈ l1, d < 10) → (∀ d ∈ l2, d < 10) →
      l1.map digitToChar = l2.map digitToChar → l1 = l2 := by
  intro l1
  induction l1 with
  | nil =>
    intro l2 _ _ h
    cases l2 with
    | nil => rfl
    | cons x xs => simp at h
  | cons a as ih =>
    intro l2 h1 h2 h
    cases l2 with
    | nil => simp at h
    | cons b bs =>
      simp only [List.map_cons, List.cons.injEq] at h
      have ha : a = b := digitToChar_inj a (h1 a (by simp)) b (h2 b (by simp)) h.1
      have : as = bs := ih bs (fun d hd => h1 d (by simp [hd])) (fun d hd => h2 d (by simp [hd])) h.2
      rw [ha, this]

theorem natToStr_inj_pos {m n : Nat} (hm : 0 < m) (hn : 0 < n)
    (h : natToStr m = natToStr n) : m = n := by
  unfold natToStr at h
  rw [if_neg (by omega), if_neg (by omega)] at h
  have hlists : (digRev (m + 1) m).reverse.map digitToChar =
      (digRev (n + 1) n).reverse.map digitToChar := by
    exact congrArg String.data h
  have hrev : (digRev (m + 1) m).reverse = (digRev (n + 1) n).reverse := by
    refine map_digitToChar_inj _ _ ?_ ?_ hlists
    · intro d hd
      exact digRev_lt10 _ _ _ (List.mem_reverse.mp hd)
    · intro d hd
      exact digRev_lt10 _ _ _ (List.mem_reverse.mp hd)
  have hdig : digRev (m + 1) m = digRev (n + 1) n := List.reverse_inj.mp hrev
  have h1 : fromDigitsLE (digRev (m + 1) m) = m := fromDigitsLE_digRev _ _ (by omega)
  have h2 : fromDigitsLE (digRev (n + 1) n) = n := fromDigitsLE_digRev _ _ (by omega)
  rw [← h1, ← h2, hdig]

/-! ## Lemmas: column-name de-duplication -/

theorem memB_iff (s : String) (l : List String) : memB s l = true ↔ s ∈ l := by
  simp only [memB, List.any_eq_true, beq_iff_eq]
  constructor
  · rintro ⟨x, hx, rfl⟩
    exact hx
  · intro h
    exact ⟨s, h, rfl⟩

theorem toLowerStr_natToStr (k : Nat) : toLowerStr (natToStr k) = natToStr k := by
  unfold natToStr
  by_cases h0 : k = 0
  · subst h0
    rfl
  · rw [if_neg h0]
    show String.mk ((((digRev (k + 1) k).reverse).map digitToChar).map charLower) = _
    rw [List.map_map]
    congr 1
    apply List.map_congr_left
    intro d _
    exact charLower_digitToChar d

theorem toLowerStr_candName (b : String) (k : Nat) :
    toLowerStr (candName b k) = candName (toLowerStr b) k := by
  unfold candName
  rw [toLowerStr_append, toLowerStr_append, toLowerStr_natToStr]
  rfl

theorem str_append_right_inj (b s1 s2 : String) (h : b ++ s1 = b ++ s2) : s1 = s2 := by
  have : b.data ++ s1.data = b.data ++ s2.data := by
    rw [← String.data_append, ← String.data_append, h]
  have hd : s1.data = s2.data := List.append_cancel_left this
  cases s1
  cases s2
  exact congrArg String.mk hd

theorem candName_inj_pos (b : String) {k1 k2 : Nat} (h1 : 0 < k1) (h2 : 0 < k2)
    (h : candName b k1 = candName b k2) : k1 = k2 := by
  unfold candName at h
  rw [String.append_assoc, String.append_assoc] at h
  have := str_append_right_inj _ _ _ h
  have := str_append_right_inj "_" _ _ this
  exact natToStr_inj_pos h1 h2 this

theorem exists_fresh (used : List String) (b : String) :
    ∃ j ∈ List.range (used.length + 1),
      memB (toLowerStr (candName b (j + 1))) used = false := by
  by_contra hcon
  push_neg at hcon
  have hall : ∀ j ∈ Finset.range (used.length + 1),
      toLowerStr (candName b (j + 1)) ∈ used := by
    intro j hj
    have hj' : j ∈ List.range (used.length + 1) := by
      simpa [List.mem_range] using Finset.mem_range.mp hj
    have hne := hcon j hj'
    simp only [ne_eq, Bool.not_eq_false] at hne
    exact (memB_iff _ _).mp hne
  set f : Nat → String := fun j => toLowerStr (candName b (j + 1)) with hf
  have hinj : Set.InjOn f ↑(Finset.range (used.length + 1)) := by
    intro j1 _ j2 _ heq
    have : candName (toLowerStr b) (j1 + 1) = candName (toLowerStr b) (j2 + 1) := by
      rw [← toLowerStr_candName, ← toLowerStr_candName]
      exact heq
    have := candName_inj_pos (toLowerStr b) (by omega) (by omega) this
    omega
  have hsub : (Finset.range (used.length + 1)).image f ⊆ used.toFinset := by
    intro x hx
    rcases Finset.mem_image.mp hx with ⟨j, hj, rfl⟩
    exact List.mem_toFinset.mpr (hall j hj)
  have hcard1 : ((Finset.range (used.length + 1)).image f).card = used.length + 1 := by
    rw [Finset.card_image_of_injOn hinj, Finset.card_range]
  have hcard2 : ((Finset.range (used.length + 1)).image f).card ≤ used.length :=
    le_trans (Finset.card_le_card hsub) (List.toFinset_card_le used)
  omega

theorem pickFresh_not_used (used : List String) (base : String) :
    memB (toLowerStr (pickFresh used base)) used = false := by
  unfold pickFresh
  by_cases hb : memB (toLowerStr base) used = true
  · rw [if_pos hb]
    rcases hfind : (List.range (used.length + 1)).find?
        (fun j => !(memB (toLowerStr (candName base (j + 1))) used)) with _ | j
    · exfalso
      rcases exists_fresh used base with ⟨j, hj, hjf⟩
      have := List.find?_eq_none.mp hfind j hj
      simp only [Bool.not_eq_true'] at this
      exact absurd hjf this
    · have := List.find?_some hfind
      simpa using this
  · rw [if_neg hb]
    simpa using hb

theorem str_append_ne_empty (s t : String) (h : s ≠ "") : s ++ t ≠ "" := by
  intro hc
  apply h
  have hd : s.data ++ t.data = [] := by
    rw [← String.data_append, hc]
  rcases List.append_eq_nil.mp hd with ⟨h1, _⟩
  cases s
  simp only at h1
  rw [h1]

theorem pickFresh_shape (used : List String) (base : String) :
    pickFresh used base = base ∨ ∃ k, pickFresh used base = candName base k := by
  unfold pickFresh
  by_cases hb : memB (toLowerStr base) used = true
  · rw [if_pos hb]
    rcases hfind : (List.range (used.length + 1)).find?
        (fun j => !(memB (toLowerStr (candName base (j + 1))) used)) with _ | j
    · exact Or.inr ⟨used.length + 2, rfl⟩
    · exact Or.inr ⟨j + 1, rfl⟩
  · rw [if_neg hb]
    exact Or.inl rfl

theorem pickFresh_ne_empty (used : List String) (base : String) (h : base ≠ "") :
    pickFresh used base ≠ "" := by
  rcases pickFresh_shape used base with hs | ⟨k, hs⟩
  · rw [hs]
    exact h
  · rw [hs]
    unfold candName
    rw [String.append_assoc]
    exact str_append_ne_empty _ _ h

theorem normalizeOne_ne_empty (idx : Nat) (used : List String) (c : String) :
    normalizeOne idx used c ≠ "" := by
  unfold normalizeOne
  apply pickFresh_ne_empty
  by_cases h1 : (rawNormalize c == "" ||
      ((rawNormalize c).data.head?.map Char.isDigit).getD false) = true
  · rw [if_pos h1]
    by_cases h2 : memB (toLowerStr ("column_" ++ natToStr (idx + 1))) reservedWords = true
    · rw [if_pos h2]
      exact str_append_ne_empty _ _ (str_append_ne_empty "column_" _ (by decide))
    · rw [if_neg h2]
      exact str_append_ne_empty "column_" _ (by decide)
  · rw [if_neg h1]
    have hne : rawNormalize c ≠ "" := by
      intro hc
      apply h1
      simp [hc]
    by_cases h2 : memB (toLowerStr (rawNormalize c)) reservedWords = true
    · rw [if_pos h2]
      exact str_append_ne_empty _ _ hne
    · rw [if_neg h2]
      exact hne

theorem memB_cons (s a : String) (l : List String) :
    memB s (a :: l) = ((a == s) || memB s l) := by
  simp [memB]

theorem normalizeGo_spec : ∀ (cols : List String) (idx : Nat) (used : List String),
    (normalizeGo cols idx used).length = cols.length ∧
    (∀ n ∈ normalizeGo cols idx used, memB (toLowerStr n) used = false) ∧
    ((normalizeGo cols idx used).map toLowerStr).Nodup ∧
    (∀ n ∈ normalizeGo cols idx used, n ≠ "") := by
  intro cols
  induction cols with
  | nil => simp [normalizeGo]
  | cons c rest ih =>
    intro idx used
    obtain ⟨ihlen, ihfresh, ihnodup, ihne⟩ :=
      ih (idx + 1) (toLowerStr (normalizeOne idx used c) :: used)
    refine ⟨?_, ?_, ?_, ?_⟩
    · simp [normalizeGo, ihlen]
    · intro n hn
      simp only [normalizeGo, List.mem_cons] at hn
      rcases hn with rfl | hn
      · exact pickFresh_not_used used _
      · have := ihfresh n hn
        rw [memB_cons] at this
        simp only [Bool.or_eq_false_iff] at this
        exact this.2
    · simp only [normalizeGo, List.map_cons, List.nodup_cons]
      refine ⟨?_, ihnodup⟩
      intro hmem
      rcases List.mem_map.mp hmem with ⟨n, hn, heq⟩
      have := ihfresh n hn
      rw [memB_cons] at this
      simp only [Bool.or_eq_false_iff] at this
      have h1 := this.1
      rw [heq] at h1
      simp at h1
    · intro n hn
      simp only [normalizeGo, List.mem_cons] at hn
      rcases hn with rfl | hn
      · exact normalizeOne_ne_empty idx used c
      · exact ihne n hn

/-- C5: `normalizeColumnNames` preserves the column count and yields names
that are non-empty and pairwise distinct — even case-insensitively, which is
what the storage layer requires of identifiers.  An empty or digit-leading
normalization is replaced by `column_<1-based index>`, a reserved word gets
the fixed `_col` suffix, and a collision gets the smallest unused numeric
suffix, as the three concrete runs show; in particular
`["Order Date","Amount ($)","Amount ($)"]` yields three distinct names with
the duplicate resolved as `Amount_1`. -/
theorem normalizeColumnNames_spec : ∀ cols : List String,
    (normalizeColumnNames cols).length = cols.length ∧
    (∀ n ∈ normalizeColumnNames cols, n ≠ "") ∧
    ((normalizeColumnNames cols).map toLowerStr).Nodup ∧
    (normalizeColumnNames cols).Nodup ∧
    normalizeColumnNames ["Order Date", "Amount ($)", "Amount ($)"] =
      ["Order_Date", "Amount", "Amount_1"] ∧
    normalizeColumnNames ["select", "", "9lives"] =
      ["select_col", "column_2", "column_3"] ∧
    normalizeColumnNames ["a", "a_1", "a"] = ["a", "a_1", "a_2"] := by
  intro cols
  obtain ⟨h1, _, h3, h4⟩ := normalizeGo_spec cols 0 []
  exact ⟨h1, h4, h3, List.Nodup.of_map _ h3, by decide, by decide, by decide⟩

/-- C5 witness: the duplicate-resolved name of the concrete run is non-empty,
by the theorem applied at that input. -/
theorem normalizeColumnNames_spec_witness : "Amount_1" ≠ "" :=
  (normalizeColumnNames_spec ["Order Date", "Amount ($)", "Amount ($)"]).2.1
    "Amount_1" (by decide)

/-! ## C4: type inference -/

theorem foldl_inferStep (dp : String → Option String) :
    ∀ (l : List String) (b : Bool × Bool × Bool),
      l.foldl (inferStep dp) b =
        (b.1 && l.all (fun v => intPattern (trimStr v)),
         b.2.1 && l.all (fun v => realPattern (trimStr v)),
         b.2.2 && l.all (fun v => jsDateValid dp (trimStr v) && datePattern (trimStr v))) := by
  intro l
  induction l with
  | nil =>
    intro b
    rcases b with ⟨b1, b2, b3⟩
    simp
  | cons a l ih =>
    intro b
    rw [List.foldl_cons, ih]
    rcases b with ⟨b1, b2, b3⟩
    simp [inferStep, Bool.and_assoc]

/-- C4: with up to 100 sampled non-null, non-empty cells, the inferred type is
`INTEGER` when every sample matches the integer pattern, else `REAL` when
every sample matches the numeric pattern, else `DATE` when every sample both
parses as a valid date and matches a recognised date shape, else `TEXT`; a
column with no non-null values is `TEXT`.  The four concrete columns of the
specification infer as stated. -/
theorem inferColumnType_spec :
    (∀ (dp : String → Option String) (values : List (Option String)),
      inferColumnType dp values =
        if nonNullCells values = [] then "TEXT"
        else if ((nonNullCells values).take 100).all
            (fun v => intPattern (trimStr v)) then "INTEGER"
        else if ((nonNullCells values).take 100).all
            (fun v => realPattern (trimStr v)) then "REAL"
        else if ((nonNullCells values).take 100).all
            (fun v => jsDateValid dp (trimStr v) && datePattern (trimStr v)) then "DATE"
        else "TEXT") ∧
    inferColumnType jsDateModel [some "1", some "2", some "3"] = "INTEGER" ∧
    inferColumnType jsDateModel [some "1.5", some "2"] = "REAL" ∧
    inferColumnType jsDateModel [some "2024-01-01", some "2024-02-15"] = "DATE" ∧
    inferColumnType jsDateModel [some "a", some "1"] = "TEXT" ∧
    inferColumnType jsDateModel [] = "TEXT" := by
  refine ⟨?_, by decide, by decide, by decide, by decide, by decide⟩
  intro dp values
  unfold inferColumnType
  by_cases h : nonNullCells values = []
  · simp [h]
  · have hlen : ¬(nonNullCells values).length = 0 := by
      simpa [List.length_eq_zero] using h
    simp only [foldl_inferStep, Bool.true_and, if_neg hlen, if_neg h]

/-! ## C3: per-value conversion during bulk load -/

/-- C3 (amended): null/undefined/empty cells load as `null`;
`parseInt`/`parseFloat` failures degrade to `null`; but a `DATE` cell that
fails to parse is stored as its raw trimmed text, not as `null`.  Successful
conversions store the parsed value.  The conversion is a total function, so
no cell ever fails its row. -/
theorem convertValue_spec : ∀ dp : String → Option String,
    (∀ ty, convertValue dp ty none = SqlVal.null) ∧
    (∀ ty, convertValue dp ty (some "") = SqlVal.null) ∧
    (∀ s, jsParseInt (trimStr s) = none →
      convertValue dp "INTEGER" (some s) = SqlVal.null) ∧
    (∀ s i, s ≠ "" → jsParseInt (trimStr s) = some i →
      convertValue dp "INTEGER" (some s) = SqlVal.int i) ∧
    (∀ s, jsParseFloat (trimStr s) = none →
      convertValue dp "REAL" (some s) = SqlVal.null) ∧
    (∀ s, s ≠ "" → dp (trimStr s) = none →
      convertValue dp "DATE" (some s) = SqlVal.text (trimStr s)) ∧
    (∀ s iso, s ≠ "" → dp (trimStr s) = some iso →
      convertValue dp "DATE" (some s) = SqlVal.text iso) := by
  intro dp
  refine ⟨fun ty => rfl, fun ty => rfl, ?_, ?_, ?_, ?_, ?_⟩
  · intro s h
    by_cases hs : s = ""
    · subst hs
      rfl
    · simp [convertValue, hs, h]
  · intro s i hs h
    simp [convertValue, hs, h]
  · intro s h
    by_cases hs : s = ""
    · subst hs
      rfl
    · simp [convertValue, hs, h]
  · intro s hs h
    simp [convertValue, hs, h]
  · intro s iso hs h
    simp [convertValue, hs, h]

/-- C3 witness: an unparsable `INTEGER` cell loads as `null`, by the theorem
at a concrete cell. -/
theorem convertValue_spec_witness :
    convertValue jsDateModel "INTEGER" (some "abc") = SqlVal.null :=
  (convertValue_spec jsDateModel).2.2.1 "abc" (by decide)

/-- C3 counterexample: a `DATE` cell that fails to parse is stored as its raw
text, not as `null` — `new Date('not-a-date')` is invalid, and the code's
`isNaN(...) ? strValue : ...` branch keeps `strValue`. -/
theorem convertValue_date_cex :
    jsDateModel "not-a-date" = none ∧
    convertValue jsDateModel "DATE" (some "not-a-date") = SqlVal.text "not-a-date" ∧
    SqlVal.text "not-a-date" ≠ SqlVal.null := by
  refine ⟨by decide, by decide, by decide⟩

/-! ## C1, C2, C6, C10: the SQL execution tool -/

theorem scopeCheck_eq_false {q t : String}
    (h : containsStr (toLowerStr q) (toLowerStr t) = false) :
    (containsStr (toLowerStr q) (toLowerStr t) ||
     containsStr (toLowerStr q) (toLowerStr ("\"" ++ t ++ "\"")) ||
     containsStr (toLowerStr q) (toLowerStr ("'" ++ t ++ "'"))) = false := by
  have h2 : containsStr (toLowerStr q) (toLowerStr ("\"" ++ t ++ "\"")) = false := by
    rcases hb : containsStr (toLowerStr q) (toLowerStr ("\"" ++ t ++ "\"")) with _ | _
    · rfl
    · rw [toLowerStr_append, toLowerStr_append] at hb
      have := containsStr_of_wrap _ _ _ _ hb
      rw [h] at this
      exact Bool.noConfusion this
  have h3 : containsStr (toLowerStr q) (toLowerStr ("'" ++ t ++ "'")) = false := by
    rcases hb : containsStr (toLowerStr q) (toLowerStr ("'" ++ t ++ "'")) with _ | _
    · rfl
    · rw [toLowerStr_append, toLowerStr_append] at hb
      have := containsStr_of_wrap _ _ _ _ hb
      rw [h] at this
      exact Bool.noConfusion this
  rw [h, h2, h3]
  rfl

theorem executeSql_noScope_outcome (cb : Option ReasoningCallback) (db : Engine)
    (q f : String) (r : Option String) (hcb : cbStep cb r = Except.ok ())
    (hcon : containsStr (toLowerStr q) (toLowerStr ("data_" ++ f)) = false) :
    executeSqlTool cb db q f r =
      if startsWithStr (toLowerStr (trimStr q)) "select" = false then
        SqlOutcome.validationError
      else
        match sqliteIncompatible.find?
            (fun syn => containsStr (toLowerStr (trimStr q)) syn) with
        | some tok => SqlOutcome.unsupportedFn tok
        | none => SqlOutcome.scopeViolation := by
  unfold executeSqlTool
  rw [hcb]
  by_cases hsw : startsWithStr (toLowerStr (trimStr q)) "select" = true
  · rcases hfind : sqliteIncompatible.find?
        (fun syn => containsStr (toLowerStr (trimStr q)) syn) with _ | tok
    · simp [hsw, hfind, scopeCheck_eq_false hcon]
    · simp [hsw, hfind]
  · have hsw' : startsWithStr (toLowerStr (trimStr q)) "select" = false := by
      simpa using hsw
    simp [hsw']

/-- C1 (amended): whenever the trimmed, lower-cased query does not begin with
the character sequence `select`, the tool returns `ValidationError`, and the
result is independent of the storage engine — no statement is executed.
(The source checks the `select` text as a prefix, not as a whole first
keyword; see the counterexample.) -/
theorem executeSql_select_guard : ∀ (cb : Option ReasoningCallback)
    (db1 db2 : Engine) (q f : String) (r : Option String),
    cbStep cb r = Except.ok () →
    startsWithStr (toLowerStr (trimStr q)) "select" = false →
    executeSqlTool cb db1 q f r = SqlOutcome.validationError ∧
    executeSqlTool cb db1 q f r = executeSqlTool cb db2 q f r := by
  intro cb db1 db2 q f r hcb hsw
  have h1 : ∀ db : Engine, executeSqlTool cb db q f r = SqlOutcome.validationError := by
    intro db
    unfold executeSqlTool
    rw [hcb]
    simp [hsw]
  rw [h1 db1, h1 db2]
  exact ⟨rfl, rfl⟩

/-- C1 witness: `DELETE FROM data_x` is rejected with `ValidationError`, and
the result is the same for two different engines (storage untouched). -/
theorem executeSql_select_guard_witness :
    executeSqlTool none engineOkEmpty "DELETE FROM data_x" "x" none =
      SqlOutcome.validationError ∧
    executeSqlTool none engineOkEmpty "DELETE FROM data_x" "x" none =
      executeSqlTool none engineFail "DELETE FROM data_x" "x" none :=
  executeSql_select_guard none engineOkEmpty engineFail "DELETE FROM data_x" "x"
    none rfl (by decide)

/-- C1 counterexample: `selectx * from data_1` has first keyword `selectx`,
not `select`, yet the tool does not return `ValidationError` — the prefix
check lets it through and the statement reaches the engine. -/
theorem executeSql_firstKeyword_cex :
    firstKeyword "selectx * from data_1" ≠ "select" ∧
    executeSqlTool none engineOkEmpty "selectx * from data_1" "1" none =
      SqlOutcome.ok [] ∧
    executeSqlTool none engineOkEmpty "selectx * from data_1" "1" none ≠
      SqlOutcome.validationError := by
  refine ⟨by decide, by decide, by decide⟩

/-- C2 (amended): when the query does not contain the substring
`data_<datasetId>` (case-insensitively; the quoted spellings are subsumed by
the bare one), the tool fails without consulting the engine — with
`ScopeViolation` once the SELECT-prefix and syntax validations pass.
Conversely every query whose execution reaches the engine does contain
`data_<datasetId>`; containing it does not, however, prevent the query from
also referencing other datasets' tables (see the counterexample). -/
theorem executeSql_scope_guard : ∀ (cb : Option ReasoningCallback)
    (db1 db2 : Engine) (q f : String) (r : Option String),
    cbStep cb r = Except.ok () →
    ((containsStr (toLowerStr q) (toLowerStr ("data_" ++ f)) = false →
      (executeSqlTool cb db1 q f r = executeSqlTool cb db2 q f r) ∧
      (∀ rows, executeSqlTool cb db1 q f r ≠ SqlOutcome.ok rows) ∧
      (startsWithStr (toLowerStr (trimStr q)) "select" = true →
       sqliteIncompatible.find?
         (fun syn => containsStr (toLowerStr (trimStr q)) syn) = none →
       executeSqlTool cb db1 q f r = SqlOutcome.scopeViolation)) ∧
     (∀ rows, executeSqlTool cb db1 q f r = SqlOutcome.ok rows →
       referencesDataset q f = true)) := by
  intro cb db1 db2 q f r hcb
  constructor
  · intro hcon
    refine ⟨?_, ?_, ?_⟩
    · rw [executeSql_noScope_outcome cb db1 q f r hcb hcon,
        executeSql_noScope_outcome cb db2 q f r hcb hcon]
    · intro rows
      rw [executeSql_noScope_outcome cb db1 q f r hcb hcon]
      by_cases hsw : startsWithStr (toLowerStr (trimStr q)) "select" = false
      · simp [hsw]
      · rcases hfind : sqliteIncompatible.find?
            (fun syn => containsStr (toLowerStr (trimStr q)) syn) with _ | tok <;>
          simp [hsw, hfind]
    · intro hsw hfind
      rw [executeSql_noScope_outcome cb db1 q f r hcb hcon]
      simp [hsw, hfind]
  · intro rows hok
    rcases hcon : containsStr (toLowerStr q) (toLowerStr ("data_" ++ f)) with _ | _
    · rw [executeSql_noScope_outcome cb db1 q f r hcb hcon] at hok
      by_cases hsw : startsWithStr (toLowerStr (trimStr q)) "select" = false
      · rw [if_pos hsw] at hok
        exact SqlOutcome.noConfusion hok
      · rw [if_neg hsw] at hok
        rcases hfind : sqliteIncompatible.find?
            (fun syn => containsStr (toLowerStr (trimStr q)) syn) with _ | tok <;>
          rw [hfind] at hok <;> exact SqlOutcome.noConfusion hok
    · exact hcon

/-- C2 witness: a query that never mentions the dataset's table fails with
`ScopeViolation`, by the theorem at a concrete query. -/
theorem executeSql_scope_guard_witness :
    executeSqlTool none engineOkEmpty "SELECT 1" "9" none =
      SqlOutcome.scopeViolation :=
  (((executeSql_scope_guard none engineOkEmpty engineFail "SELECT 1" "9" none
    rfl).1 (by decide)).2.2) (by decide) (by decide)

/-- C2 counterexample: with dataset id `1`, the query
`select * from data_2, data_1` passes the scope check and is executed by the
engine even though it also references the table of dataset `2` — the check
does not restrict the query to reading only the one isolated table. -/
theorem executeSql_crossTable_cex :
    referencesDataset "select * from data_2, data_1" "2" = true ∧
    ("2" : String) ≠ "1" ∧
    executeSqlTool none engineEcho "select * from data_2, data_1" "1" none =
      SqlOutcome.ok [[("query", "select * from data_2, data_1 LIMIT 1000")]] := by
  refine ⟨by decide, by decide, by decide⟩

theorem head?_dropWhile_false {α : Type} (p : α → Bool) :
    ∀ (l : List α) (c : α), (l.dropWhile p).head? = some c → p c = false := by
  intro l
  induction l with
  | nil => simp
  | cons a t ih =>
    intro c hc
    by_cases hp : p a = true
    · rw [List.dropWhile_cons_of_pos hp] at hc
      exact ih c hc
    · rw [List.dropWhile_cons_of_neg hp] at hc
      simp only [List.head?_cons, Option.some.injEq] at hc
      rw [← hc]
      simpa using hp

/-- C6 (amended): the sanitation step strips every trailing semicolon and
appends ` LIMIT 1000` exactly when the cleaned query does not contain the
character sequence `limit` (case-insensitively) — which is how the source
tests for an existing row cap.  On a LIMIT-honouring engine,
`SELECT * FROM data_x` (with or without trailing semicolons) over a table of
any size therefore returns at most 1000 rows. -/
theorem sanitizeQuery_spec :
    (∀ q, containsStr (toLowerStr (stripTrailingSemis (trimStr q))) "limit" = false →
      sanitizeQuery q = stripTrailingSemis (trimStr q) ++ " LIMIT 1000") ∧
    (∀ q, containsStr (toLowerStr (stripTrailingSemis (trimStr q))) "limit" = true →
      sanitizeQuery q = stripTrailingSemis (trimStr q)) ∧
    (∀ q, (stripTrailingSemis q).data.getLast? ≠ some ';') ∧
    (∀ tbl : List DatabaseRow,
      executeSqlTool none (limitEngine tbl) "SELECT * FROM data_x" "x" none =
        SqlOutcome.ok (tbl.take 1000) ∧
      executeSqlTool none (limitEngine tbl) "SELECT * FROM data_x;;" "x" none =
        SqlOutcome.ok (tbl.take 1000) ∧
      (tbl.take 1000).length ≤ 1000) := by
  refine ⟨?_, ?_, ?_, ?_⟩
  · intro q h
    simp [sanitizeQuery, h]
  · intro q h
    simp [sanitizeQuery, h]
  · intro q hc
    unfold stripTrailingSemis at hc
    rw [List.getLast?_reverse] at hc
    have := head?_dropWhile_false (fun c => c == ';') _ _ hc
    simp at this
  · intro tbl
    refine ⟨rfl, rfl, ?_⟩
    rw [List.length_take]
    exact min_le_left _ _

/-- C6 witness: the capped query built for `SELECT * FROM data_x` is the
original text with ` LIMIT 1000` appended, by the theorem at that query. -/
theorem sanitizeQuery_spec_witness :
    sanitizeQuery "SELECT * FROM data_x" =
      stripTrailingSemis (trimStr "SELECT * FROM data_x") ++ " LIMIT 1000" :=
  sanitizeQuery_spec.1 "SELECT * FROM data_x" (by decide)

/-- C6 counterexample: `select unlimited from data_1` carries no row cap
(no standalone `limit` token), yet the substring test sees `limit` inside
`unlimited`, no cap is appended, and a 5000-row table comes back whole —
more than 1000 rows. -/
theorem sanitizeQuery_rowCap_cex :
    hasRowCapToken "select unlimited from data_1" = false ∧
    sanitizeQuery "select unlimited from data_1" = "select unlimited from data_1" ∧
    executeSqlTool none unlimitedEngine "select unlimited from data_1" "1" none =
      SqlOutcome.ok tbl5000 ∧
    1000 < tbl5000.length := by
  refine ⟨by decide, by decide, rfl, ?_⟩
  show 1000 < (List.replicate 5000 ([] : DatabaseRow)).length
  rw [List.length_replicate]
  omega

/-- C10 (amended): `callReasoningCallback` invokes the registered callback
with no `try`/`catch` of its own, so a throwing callback raises to the
caller; each tool body's surrounding `catch` then converts the exception into
a structured failure result — it does not escape the tool as an exception,
and the engine is never consulted.  When the callback step succeeds, the tool
never reports a callback failure. -/
theorem callbackError_containment : ∀ (db : Engine) (q f : String),
    (∀ (cb : Option ReasoningCallback) (r : Option String) (e : String),
      cbStep cb r = Except.error e →
      executeSqlTool cb db q f r = SqlOutcome.callbackError e ∧
      (∀ db2 : Engine, executeSqlTool cb db q f r = executeSqlTool cb db2 q f r)) ∧
    (∀ (cb : Option ReasoningCallback) (r : Option String),
      cbStep cb r = Except.ok () →
      ∀ e, executeSqlTool cb db q f r ≠ SqlOutcome.callbackError e) := by
  intro db q f
  constructor
  · intro cb r e h
    have h1 : ∀ db0 : Engine, executeSqlTool cb db0 q f r = SqlOutcome.callbackError e := by
      intro db0
      unfold executeSqlTool
      rw [h]
    rw [h1 db]
    exact ⟨rfl, fun db2 => by rw [h1 db2]⟩
  · intro cb r h e
    unfold executeSqlTool
    rw [h]
    by_cases hsw : startsWithStr (toLowerStr (trimStr q)) "select" = true
    · rcases hfind : sqliteIncompatible.find?
          (fun syn => containsStr (toLowerStr (trimStr q)) syn) with _ | tok
      · by_cases hscope : (containsStr (toLowerStr q) (toLowerStr ("data_" ++ f)) ||
            containsStr (toLowerStr q) (toLowerStr ("\"" ++ ("data_" ++ f) ++ "\"")) ||
            containsStr (toLowerStr q) (toLowerStr ("'" ++ ("data_" ++ f) ++ "'"))) = true
        · rcases hdb : db (sanitizeQuery q) with rows | er <;>
            simp [hsw, hfind, hscope, hdb]
        · simp [hsw, hfind, hscope]
      · simp [hsw, hfind]
    · have hsw' : startsWithStr (toLowerStr (trimStr q)) "select" = false := by
        simpa using hsw
      simp [hsw']

/-- C10 witness: a throwing callback surfaces as a structured
`callbackError` result from the tool, by the theorem at a concrete throwing
callback. -/
theorem callbackError_containment_witness :
    executeSqlTool (some cbThrow) engineOkEmpty "q" "1" (some "go") =
      SqlOutcome.callbackError "callback down" :=
  ((callbackError_containment engineOkEmpty "q" "1").1 (some cbThrow) (some "go")
    "callback down" rfl).1

/-- C10 counterexample: `callReasoningCallback` itself propagates the
callback's exception to its caller — the call is not swallowed inside the
emitter. -/
theorem callReasoningCallback_throws_cex :
    callReasoningCallback (some cbThrow) "step one" none =
      Except.error "callback down" ∧
    callReasoningCallback (some cbThrow) "step one" none ≠ Except.ok () := by
  refine ⟨rfl, ?_⟩
  intro h
  rw [show callReasoningCallback (some cbThrow) "step one" none =
    Except.error "callback down" from rfl] at h
  exact Except.noConfusion h

/-! ## C7, C8: dataset deletion and the schema tool afterwards -/

theorem find?_filter_out {α : Type} (p : α → Bool) :
    ∀ l : List α, (l.filter (fun a => !(p a))).find? p = none := by
  intro l
  induction l with
  | nil => rfl
  | cons a t ih =>
    by_cases hp : p a = true
    · rw [List.filter_cons_of_neg (by simp [hp])]
      exact ih
    · rw [List.filter_cons_of_pos (by simp [hp]),
        List.find?_cons_of_neg _ (by simpa using hp)]
      exact ih

/-- C7 (amended): for a registered dataset the DELETE route attempts its
storage steps in the order clear-history, drop-table, delete-metadata; a
history-clearing failure is non-fatal (the route still succeeds and removes
the table and the metadata), while a table-drop or metadata-delete failure
fails the route — a drop failure leaves both the table and the metadata in
place, a metadata failure leaves the metadata.  When no later step fails, the
history of the dataset is gone. -/
theorem deleteDataset_spec : ∀ (st : DbState) (id : String) (hF dF mF : Bool),
    id ∈ st.files →
    ((deleteDatasetRoute st id hF dF mF).trace =
      if dF then [DelOp.clearHistory, DelOp.dropTable]
      else [DelOp.clearHistory, DelOp.dropTable, DelOp.deleteMeta]) ∧
    (dF = false → mF = false →
      respOk (deleteDatasetRoute st id hF dF mF).response = true ∧
      ((deleteDatasetRoute st id hF dF mF).state.tables.find?
        (fun t => t.1 == "data_" ++ id)) = none ∧
      id ∉ (deleteDatasetRoute st id hF dF mF).state.files) ∧
    (hF = false →
      ∀ t ∈ (deleteDatasetRoute st id hF dF mF).state.chats, t.fileId ≠ id) ∧
    (dF = true →
      respOk (deleteDatasetRoute st id hF dF mF).response = false ∧
      (deleteDatasetRoute st id hF dF mF).state.files = st.files ∧
      (deleteDatasetRoute st id hF dF mF).state.tables = st.tables) ∧
    (dF = false → mF = true →
      respOk (deleteDatasetRoute st id hF dF mF).response = false ∧
      (deleteDatasetRoute st id hF dF mF).state.files = st.files) := by
  intro st id hF dF mF hmem
  refine ⟨?_, ?_, ?_, ?_, ?_⟩
  · rcases dF with _ | _ <;> rcases mF with _ | _ <;>
      simp [deleteDatasetRoute, hmem]
  · rintro rfl rfl
    refine ⟨?_, ?_, ?_⟩
    · rcases hF with _ | _ <;> simp [deleteDatasetRoute, hmem, respOk]
    · have htab : (deleteDatasetRoute st id hF false false).state.tables =
          st.tables.filter (fun t => !(t.1 == "data_" ++ id)) := by
        rcases hF with _ | _ <;> simp [deleteDatasetRoute, hmem]
      rw [htab]
      exact find?_filter_out _ _
    · rcases hF with _ | _ <;> simp [deleteDatasetRoute, hmem, List.mem_filter]
  · rintro rfl t ht
    rcases dF with _ | _ <;> rcases mF with _ | _ <;>
      simp [deleteDatasetRoute, hmem, List.mem_filter] at ht <;>
      exact ht.2
  · rintro rfl
    rcases hF with _ | _ <;> rcases mF with _ | _ <;>
      simp [deleteDatasetRoute, hmem, respOk]
  · rintro rfl rfl
    rcases hF with _ | _ <;> simp [deleteDatasetRoute, hmem, respOk]

/-- C7 witness: the concrete one-dataset state is deleted successfully with
the table and metadata gone, by the theorem at that state. -/
theorem deleteDataset_spec_witness :
    respOk (deleteDatasetRoute st0c "f1" false false false).response = true ∧
    ((deleteDatasetRoute st0c "f1" false false false).state.tables.find?
      (fun t => t.1 == "data_" ++ "f1")) = none ∧
    "f1" ∉ (deleteDatasetRoute st0c "f1" false false false).state.files :=
  (deleteDataset_spec st0c "f1" false false false (by decide)).2.1 rfl rfl

/-- C7 counterexample: the route's actual step order is clear-history first,
then drop-table, then delete-metadata — not drop-table first as claimed. -/
theorem deleteDataset_order_cex :
    (deleteDatasetRoute st0c "f1" false false false).trace =
      [DelOp.clearHistory, DelOp.dropTable, DelOp.deleteMeta] ∧
    (deleteDatasetRoute st0c "f1" false false false).trace ≠
      [DelOp.dropTable, DelOp.clearHistory, DelOp.deleteMeta] := by
  refine ⟨by decide, by decide⟩

/-- C8 (amended): deleting a registered dataset removes every conversation
turn stored for it; but a subsequent `getTableSchemaTool` call for the
deleted id succeeds with an empty column list — `PRAGMA table_info` on a
missing table returns zero rows rather than an error, so no `NotFound`
failure is surfaced. -/
theorem deleteDataset_history_getSchema : ∀ (st : DbState) (id : String)
    (cb : Option ReasoningCallback),
    id ∈ st.files →
    (∀ t ∈ (deleteDatasetRoute st id false false false).state.chats, t.fileId ≠ id) ∧
    getTableSchemaTool cb (deleteDatasetRoute st id false false false).state id none =
      SchemaOutcome.ok [] := by
  intro st id cb hmem
  constructor
  · intro t ht
    simp [deleteDatasetRoute, hmem, List.mem_filter] at ht
    exact ht.2
  · have htab : (deleteDatasetRoute st id false false false).state.tables =
        st.tables.filter (fun t => !(t.1 == "data_" ++ id)) := by
      simp [deleteDatasetRoute, hmem]
    have hp : pragmaTableInfo (deleteDatasetRoute st id false false false).state
        ("data_" ++ id) = [] := by
      unfold pragmaTableInfo
      rw [htab, find?_filter_out]
    show SchemaOutcome.ok
      ((pragmaTableInfo (deleteDatasetRoute st id false false false).state
        ("data_" ++ id)).map (fun col =>
          { name := col.name, type := col.type,
            nullable := !col.notnull, defaultValue := col.dfltValue })) =
      SchemaOutcome.ok []
    rw [hp]
    rfl

/-- C8 witness: after deleting the concrete dataset, the schema tool (with a
registered no-op callback) reports a successful empty schema, by the theorem
at that state. -/
theorem deleteDataset_history_getSchema_witness :
    getTableSchemaTool (some cbNoop)
      (deleteDatasetRoute st0c "f1" false false false).state "f1" none =
      SchemaOutcome.ok [] :=
  (deleteDataset_history_getSchema st0c "f1" (some cbNoop) (by decide)).2

/-- C8 counterexample: the schema call for the deleted dataset is not a
failure of any kind — it is a silent empty success, contradicting the claimed
`NotFound` failure. -/
theorem getSchema_afterDelete_cex :
    getTableSchemaTool none (deleteDatasetRoute st0c "f1" false false false).state
      "f1" none = SchemaOutcome.ok [] ∧
    (match getTableSchemaTool none
        (deleteDatasetRoute st0c "f1" false false false).state "f1" none with
      | SchemaOutcome.failure _ => true
      | SchemaOutcome.ok _ => false) = false := by
  refine ⟨by decide, by decide⟩

/-! ## C9: pagination of the conversation history -/

theorem flatten_chunks {α : Type} : ∀ (N k : Nat) (l : List α),
    l.length ≤ N * k →
    ((List.range N).map (fun i => (l.drop (i * k)).take k)).flatten = l := by
  intro N
  induction N with
  | zero =>
    intro k l h
    simp only [Nat.zero_mul, Nat.le_zero, List.length_eq_zero] at h
    subst h
    rfl
  | succ N ih =>
    intro k l h
    rw [List.range_succ_eq_map, List.map_cons, List.map_map]
    have hc : ((List.range N).map ((fun i => (l.drop (i * k)).take k) ∘ Nat.succ)) =
        (List.range N).map (fun i => (((l.drop k).drop (i * k)).take k)) := by
      apply List.map_congr_left
      intro i _
      simp only [Function.comp]
      rw [List.drop_drop]
      rw [Nat.succ_mul, Nat.add_comm]
    have hlen : (l.drop k).length ≤ N * k := by
      rw [List.length_drop]
      have h' : l.length ≤ N * k + k := by
        calc l.length ≤ (N + 1) * k := h
        _ = N * k + k := by rw [Nat.succ_mul]
      omega
    rw [hc, List.flatten_cons, Nat.zero_mul, List.drop_zero, ih k (l.drop k) hlen]
    exact List.take_append_drop k l

theorem flatten_map_reverse_perm {α : Type} :
    ∀ ls : List (List α), ((ls.map List.reverse).flatten).Perm ls.flatten := by
  intro ls
  induction ls with
  | nil => exact List.Perm.refl _
  | cons a t ih =>
    rw [List.map_cons, List.flatten_cons, List.flatten_cons]
    exact List.Perm.append (List.reverse_perm a) ih

theorem ceil_mul_bound (L k : Nat) (hk : 0 < k) : L ≤ ((L + k - 1) / k) * k := by
  rw [Nat.mul_comm]
  have hdm := Nat.div_add_mod (L + k - 1) k
  have hmod := Nat.mod_lt (L + k - 1) hk
  omega

/-- C9: with any positive page size `k` and a store whose turns are strictly
ascending in time, concatenating the pages `1, 2, ...` (newest-first windows,
each re-reversed to ascending order) is a permutation — hence the same set of
turns — of the full history reversed; every page is chronologically
ascending; `totalCount` is the dataset's stored turn count; and `hasMore`
holds exactly when turns remain beyond the current window. -/
theorem chatHistory_pagination_spec : ∀ (store : List ChatHistoryItem)
    (fileId : String) (k : Nat),
    0 < k →
    store.Pairwise (fun a b => a.timestamp < b.timestamp) →
    (pagesJoin store fileId k).Perm ((getAllChatHistory store fileId).reverse) ∧
    (∀ p, ((getChatHistoryPaginated store fileId p k).history).Pairwise
      (fun a b => a.timestamp < b.timestamp)) ∧
    (∀ p, (getChatHistoryPaginated store fileId p k).totalCount =
      (getAllChatHistory store fileId).length) ∧
    (∀ p, ((getChatHistoryPaginated store fileId p k).hasMore = true ↔
      ((getAllChatHistory store fileId).reverse.drop ((p - 1) * k + k)) ≠ [])) := by
  intro store fileId k hk hsort
  have hasc : (getAllChatHistory store fileId).Pairwise
      (fun a b => a.timestamp < b.timestamp) :=
    List.Pairwise.filter _ hsort
  refine ⟨?_, ?_, ?_, ?_⟩
  · unfold pagesJoin getChatHistoryPaginated
    simp only [Nat.add_sub_cancel]
    have hshape : ((List.range (((getAllChatHistory store fileId).length + k - 1) / k)).map
        (fun i => ((((chatRowsAsc store fileId).reverse).drop (i * k)).take k).reverse)) =
        ((List.range (((getAllChatHistory store fileId).length + k - 1) / k)).map
        (fun i => (((chatRowsAsc store fileId).reverse).drop (i * k)).take k)).map
          List.reverse := by
      rw [List.map_map]
      apply List.map_congr_left
      intro i _
      simp [Function.comp]
    rw [hshape]
    have hperm := flatten_map_reverse_perm
      ((List.range (((getAllChatHistory store fileId).length + k - 1) / k)).map
        (fun i => (((chatRowsAsc store fileId).reverse).drop (i * k)).take k))
    have hchunks := flatten_chunks (((getAllChatHistory store fileId).length + k - 1) / k)
      k ((chatRowsAsc store fileId).reverse)
      (by
        rw [List.length_reverse]
        exact ceil_mul_bound _ k hk)
    rw [hchunks] at hperm
    exact hperm
  · intro p
    unfold getChatHistoryPaginated
    have hdesc : ((chatRowsAsc store fileId).reverse).Pairwise
        (fun a b => b.timestamp < a.timestamp) := List.pairwise_reverse.mpr hasc
    have hwin : (((chatRowsAsc store fileId).reverse.drop ((p - 1) * k)).take k).Pairwise
        (fun a b => b.timestamp < a.timestamp) :=
      List.Pairwise.sublist
        ((List.take_sublist _ _).trans (List.drop_sublist _ _)) hdesc
    exact List.pairwise_reverse.mpr hwin
  · intro p
    rfl
  · intro p
    unfold getChatHistoryPaginated getAllChatHistory
    simp only [decide_eq_true_eq]
    constructor
    · intro hlt hnil
      rw [List.drop_eq_nil_iff, List.length_reverse] at hnil
      omega
    · intro hnil
      rcases Nat.lt_or_ge ((p - 1) * k + k) (chatRowsAsc store fileId).length with h | h
      · exact h
      · exfalso
        apply hnil
        rw [List.drop_eq_nil_iff, List.length_reverse]
        exact h

/-- C9 witness: for the concrete three-turn store with page size 2, the page
concatenation is a permutation of the full history reversed, by the theorem
at that store. -/
theorem chatHistory_pagination_spec_witness :
    (pagesJoin chatStore0 "f" 2).Perm ((getAllChatHistory chatStore0 "f").reverse) :=
  (chatHistory_pagination_spec chatStore0 "f" 2 (by decide) (by decide)).1

end CsvResearcher
